import Mathlib

/-!
Verification of the hue-gateway core against its design specification.

This file gives a shallow embedding, in Lean, of the parts of the gateway
that the specification's testable claims are about:

* the JSON-ish values the gateway passes around (Python dicts, lists,
  strings, numbers, booleans and None),
* the token-bucket rate limiter (src/hue_gateway/rate_limit.py),
* the fuzzy name resolver decision tree (src/hue_gateway/actions.py and
  src/hue_gateway/v2/dispatcher.py),
* the resource cache (src/hue_gateway/cache.py),
* the v2 event bus replay ring (src/hue_gateway/v2/event_bus.py),
* the idempotency engine and the v2 dispatcher's idempotency wrapper
  (src/hue_gateway/v2/idempotency.py, src/hue_gateway/v2/dispatcher.py),
* the bridge pairing response classification and the clipv2 path
  validation (both dispatchers),
* the light-state payload builders (both dispatchers),
* the batch executor (v2 dispatcher) and the canonical error registry.

Machine floats are modelled as rationals: every float operation the
embedded code performs (comparison, min, max, truncation, division by a
small constant) is exact on the values involved, so no rounding behaviour
is lost.  Time is an explicit parameter.  Database tables are association
lists keyed the way the SQL primary keys are.
-/

namespace HueGateway

/-- JSON-ish values: the shape of Python objects the gateway moves around
(dicts keep insertion order, so objects are ordered key/value lists). -/
inductive J where
  | null : J
  | b (x : Bool) : J
  | s (x : String) : J
  | n (x : ℚ) : J
  | arr (xs : List J) : J
  | obj (kvs : List (String × J)) : J
deriving Repr

/-- Python dict lookup (d.get(k)): first binding of the key, if any. -/
def jLookup (kvs : List (String × J)) (k : String) : Option J :=
  match kvs with
  | [] => none
  | (k', v) :: rest => if k' = k then some v else jLookup rest k

/-- Python dict assignment d[k] = v: replace the value in place when the key
is present, append otherwise. -/
def jSetKey (kvs : List (String × J)) (k : String) (v : J) : List (String × J) :=
  if kvs.any (fun p => p.1 = k) then
    kvs.map (fun p => if p.1 = k then (k, v) else p)
  else
    kvs ++ [(k, v)]

/-- Python truthiness of a JSON-ish value (bool(x)). -/
def jTruthy : J → Bool
  | J.null => false
  | J.b x => x
  | J.s x => x ≠ ""
  | J.n x => x ≠ 0
  | J.arr xs => !xs.isEmpty
  | J.obj kvs => !kvs.isEmpty

/-- Python float-to-int truncation toward zero (int(x)). -/
def pyTrunc (q : ℚ) : ℤ :=
  if 0 ≤ q then ⌊q⌋ else -⌊-q⌋

/-- Python int() on a string: optional sign followed by one or more digits
(whitespace and underscore tolerance of CPython is not needed by any value
the gateway converts). -/
def pyStrToInt (s : String) : Option ℤ :=
  let core : List Char → Option ℕ := fun ds =>
    if ds.isEmpty || ds.any (fun c => !c.isDigit) then none
    else some (ds.foldl (fun acc c => acc * 10 + (c.toNat - 48)) 0)
  match s.toList with
  | '-' :: rest => (core rest).map (fun n => -(n : ℤ))
  | '+' :: rest => (core rest).map (fun n => (n : ℤ))
  | cs => (core cs).map (fun n => (n : ℤ))

/-- Python int(x) applied to a JSON-ish value: bools and numbers convert,
integer-literal strings parse, everything else raises (None here). -/
def pyIntOf : J → Option ℤ
  | J.b x => some (if x then 1 else 0)
  | J.n q => some (pyTrunc q)
  | J.s str => pyStrToInt str
  | _ => none

/-- Python `pat in l` on lists of characters: pat occurs contiguously in l. -/
def listContainsSub (l pat : List Char) : Bool :=
  pat.isPrefixOf l || (match l with
    | [] => false
    | _ :: t => listContainsSub t pat)

/-- Python `pat in s` for strings: substring containment. -/
def strContainsSub (str pat : String) : Bool :=
  listContainsSub str.toList pat.toList

/-- Python s.startswith(pre). -/
def strStartsWith (str pre : String) : Bool :=
  pre.toList.isPrefixOf str.toList

/-- Python `a or b` on optional strings: the left value wins unless it is
None or the empty string (both falsy). -/
def pyOrStr (a b : Option String) : Option String :=
  match a with
  | some str => if str = "" then b else some str
  | none => b

/-! ## Token-bucket limiter (src/hue_gateway/rate_limit.py)

TokenBucketLimiter.allow_with_retry_after_ms, for a bucket that currently
holds a given number of tokens and was last updated `elapsed` seconds ago.
The constructor clamps rate and capacity with max(0, .), which the wrapper
mkLimiterParams records.  The result is (allowed, retry_after_ms, tokens
left in the bucket). -/

structure LimiterParams where
  rate : ℚ
  capacity : ℚ
deriving Repr

/-- Constructor clamping from TokenBucketLimiter.__init__ :
rate = max(0, rate_per_sec), capacity = max(0, burst). -/
def mkLimiterParams (ratePerSec : ℚ) (burst : ℚ) : LimiterParams :=
  { rate := max 0 ratePerSec, capacity := max 0 burst }

/-- allow_with_retry_after_ms body, given current bucket tokens and the
elapsed time since the bucket was last touched. -/
def allowWithRetryAfterMs (p : LimiterParams) (tokens elapsed cost : ℚ) :
    Bool × ℤ × ℚ :=
  let t := min p.capacity (tokens + elapsed * p.rate)
  if cost ≤ t then
    (true, 0, t - cost)
  else
    let deficit := max 0 (cost - t)
    if p.rate ≤ 0 then
      (false, 0, t)
    else
      (false, pyTrunc ((deficit / p.rate) * 1000) + 1, t)

/-! ## Name resolver decision tree

ActionDispatcher._resolve_name and V2Dispatcher._resolve_name share the
same logic.  Scoring uses difflib.SequenceMatcher; the resolver below is
parameterised by the scores, and the decision tree operates on the scored
list sorted descending (Python list.sort key=score reverse=True, which is
stable for ties). -/

structure ScoredCand where
  score : ℚ
  rid : String
  display : Option String
deriving Repr, DecidableEq

structure ResolveConfig where
  autopickThreshold : ℚ
  matchThreshold : ℚ
  margin : ℚ
deriving Repr

/-- Config defaults: FUZZY_MATCH_THRESHOLD 0.90, FUZZY_MATCH_AUTOPICK_THRESHOLD
0.95, FUZZY_MATCH_MARGIN 0.05 (src/hue_gateway/config.py). -/
def defaultResolveConfig : ResolveConfig :=
  { autopickThreshold := 95/100, matchThreshold := 90/100, margin := 5/100 }

inductive ResolveOutcome where
  | resolved (rid : String) (display : Option String) (confidence : ℚ)
  | ambiguous (cands : List ScoredCand)
  | notFound
deriving Repr, DecidableEq

/-- Decision tree applied to the scored candidate list, already sorted
descending by score (the code sorts right before this logic). -/
def resolveScored (cfg : ResolveConfig) (scored : List ScoredCand) : ResolveOutcome :=
  match scored with
  | [] => ResolveOutcome.notFound
  | best :: rest =>
    if cfg.autopickThreshold ≤ best.score then
      ResolveOutcome.resolved best.rid best.display best.score
    else
      let second := match rest with
        | [] => 0
        | s2 :: _ => s2.score
      if cfg.matchThreshold ≤ best.score ∧ cfg.margin ≤ best.score - second then
        ResolveOutcome.resolved best.rid best.display best.score
      else
        ResolveOutcome.ambiguous ((best :: rest).take 5)

/-- Full _resolve_name given a similarity oracle for the normalized query:
empty candidate list fails not_found before any scoring; otherwise score,
sort descending (stable), and decide. -/
def resolveName (cfg : ResolveConfig) (scoreOf : String → ℚ)
    (candidates : List (String × String × Option String)) : ResolveOutcome :=
  match candidates with
  | [] => ResolveOutcome.notFound
  | _ =>
    let scored := candidates.map
      (fun c => ScoredCand.mk (scoreOf c.1) c.2.1 c.2.2)
    resolveScored cfg (scored.mergeSort (fun a b => b.score ≤ a.score))

/-! ## Resource cache (src/hue_gateway/cache.py)

In-memory forward map rid → entry plus an inverted index
(rtype, name_norm) → set(rid), modelled as a Bool-valued membership
function.  The class also keeps a `_rid_to_name_norm` mirror that is
written and popped but never read; it is omitted here. -/

/-- Whitespace split of str.split(): maximal runs of non-whitespace
characters, leading/trailing/repeated whitespace dropped.  The accumulator
holds the current run reversed. -/
def splitWsAux : List Char → List Char → List (List Char)
  | [], acc => if acc.isEmpty then [] else [acc.reverse]
  | ch :: rest, acc =>
    if ch.isWhitespace then
      (if acc.isEmpty then splitWsAux rest [] else acc.reverse :: splitWsAux rest [])
    else splitWsAux rest (ch :: acc)

/-- normalize_name: " ".join(value.strip().lower().split()) — lowercase,
collapse whitespace runs to single spaces, trim. -/
def normalizeName (s : String) : String :=
  String.mk (List.intercalate [' '] (splitWsAux (s.toList.map Char.toLower) []))

/-- Per ResourceCache.upsert: name_norm = normalize_name(name) if the name is
a string whose strip() is truthy (it has a non-whitespace character), else
None. -/
def computeNameNorm (name : Option String) : Option String :=
  match name with
  | some str =>
    if str.toList.any (fun ch => !ch.isWhitespace) then some (normalizeName str) else none
  | none => none

structure CacheEntry where
  rid : String
  rtype : String
  name : Option String
  nameNorm : Option String
  data : J

structure ResourceCache where
  byRid : String → Option CacheEntry
  invIdx : String → String → String → Bool

def ResourceCache.empty : ResourceCache :=
  { byRid := fun _ => none, invIdx := fun _ _ _ => false }

/-- self._name_to_rids[rt][nn].discard(rid). -/
def invDiscard (c : ResourceCache) (rt nn rid : String) : ResourceCache :=
  { c with invIdx := fun rt2 n r =>
      if rt2 = rt ∧ n = nn ∧ r = rid then false else c.invIdx rt2 n r }

/-- self._name_to_rids[rt][nn].add(rid). -/
def invAdd (c : ResourceCache) (rt nn rid : String) : ResourceCache :=
  { c with invIdx := fun rt2 n r =>
      if rt2 = rt ∧ n = nn ∧ r = rid then true else c.invIdx rt2 n r }

/-- Discard step of ResourceCache.upsert: if a previous entry exists and its
name_norm is truthy, remove the rid from its inverted set. -/
def upsertDiscardStep (c : ResourceCache) (rid : String) : ResourceCache :=
  match c.byRid rid with
  | some prev =>
    (match prev.nameNorm with
     | some pn => if pn = "" then c else invDiscard c prev.rtype pn rid
     | none => c)
  | none => c

/-- ResourceCache.upsert: discard the rid from the previous entry's inverted
set (when its name_norm is truthy), add it under the new (rtype, name_norm)
when truthy, and replace the forward entry. -/
def cacheUpsert (c : ResourceCache) (rid rtype : String) (name : Option String) (data : J) :
    ResourceCache :=
  let c1 := upsertDiscardStep c rid
  let nn := computeNameNorm name
  let c2 :=
    match nn with
    | some n => if n = "" then c1 else invAdd c1 rtype n rid
    | none => c1
  { c2 with byRid := fun r =>
      if r = rid then some ⟨rid, rtype, name, nn, data⟩ else c2.byRid r }

/-- ResourceCache.delete: pop the forward entry and discard the rid from the
previous entry's inverted set when its name_norm is truthy. -/
def cacheDelete (c : ResourceCache) (rid : String) : ResourceCache :=
  match c.byRid rid with
  | none => c
  | some prev =>
    let c1 := { c with byRid := fun r => if r = rid then none else c.byRid r }
    match prev.nameNorm with
    | some pn => if pn = "" then c1 else invDiscard c1 prev.rtype pn rid
    | none => c1

def cacheGet (c : ResourceCache) (rid : String) : Option CacheEntry :=
  c.byRid rid

inductive CacheOp where
  | upsert (rid rtype : String) (name : Option String) (data : J)
  | delete (rid : String)
  | get (rid : String)

def applyCacheOp (c : ResourceCache) : CacheOp → ResourceCache
  | CacheOp.upsert rid rtype name data => cacheUpsert c rid rtype name data
  | CacheOp.delete rid => cacheDelete c rid
  | CacheOp.get _ => c

def runCacheOps (ops : List CacheOp) : ResourceCache :=
  ops.foldl applyCacheOp ResourceCache.empty

/-- Strengthened cache invariant: a rid belongs to the inverted set for
(rt, nn) exactly when its forward entry exists with that rtype and that
non-empty name_norm. -/
def CacheInv (c : ResourceCache) : Prop :=
  ∀ rt nn rid, c.invIdx rt nn rid = true ↔
    ∃ e, c.byRid rid = some e ∧ e.rtype = rt ∧ e.nameNorm = some nn ∧ nn ≠ ""

/-! ## Event bus replay ring (src/hue_gateway/v2/event_bus.py) -/

structure BusState where
  cursor : ℤ
  ring : List (ℤ × J)
  maxlen : ℕ

/-- V2EventBus.__init__ with deque(maxlen=max(1, replay_maxlen)). -/
def busInit (replayMaxlen : ℕ) : BusState :=
  { cursor := 0, ring := [], maxlen := max 1 replayMaxlen }

/-- V2EventBus.publish: bump the cursor and append to the bounded ring
(deque drops from the oldest end at capacity). -/
def busPublish (s : BusState) (ev : J) : BusState :=
  let c := s.cursor + 1
  let base := if s.ring.length = s.maxlen then s.ring.drop 1 else s.ring
  { s with cursor := c, ring := base ++ [(c, ev)] }

def busPublishAll (s : BusState) (evs : List J) : BusState :=
  evs.foldl busPublish s

/-- V2EventBus.replay_from on the snapshot of the ring. -/
def replayFrom (items : List (ℤ × J)) (lastCursor : ℤ) : Option (List (ℤ × J)) :=
  if items.isEmpty then
    if 0 < lastCursor then none else some []
  else if lastCursor ≤ 0 then some items
  else if items.any (fun it => it.1 = lastCursor) then
    some (items.filter (fun it => lastCursor < it.1))
  else none

/-! ## Canonical error registry (src/hue_gateway/v2/error_registry.py) -/

inductive Retryable where
  | yes
  | no
  | maybe
deriving DecidableEq, Repr

structure ErrorRegistryEntry where
  code : String
  httpStatus : ℤ
  retryable : Retryable
deriving DecidableEq, Repr

def v2ErrorCodeRegistry : List ErrorRegistryEntry :=
  [ ⟨"invalid_json", 400, Retryable.no⟩,
    ⟨"invalid_request", 400, Retryable.no⟩,
    ⟨"invalid_action", 400, Retryable.no⟩,
    ⟨"unknown_action", 400, Retryable.no⟩,
    ⟨"invalid_args", 400, Retryable.no⟩,
    ⟨"request_id_mismatch", 400, Retryable.no⟩,
    ⟨"invalid_idempotency_key", 400, Retryable.no⟩,
    ⟨"unauthorized", 401, Retryable.no⟩,
    ⟨"not_found", 404, Retryable.no⟩,
    ⟨"ambiguous_name", 409, Retryable.no⟩,
    ⟨"no_confident_match", 409, Retryable.no⟩,
    ⟨"link_button_not_pressed", 409, Retryable.yes⟩,
    ⟨"idempotency_in_progress", 409, Retryable.yes⟩,
    ⟨"idempotency_key_reuse_mismatch", 409, Retryable.no⟩,
    ⟨"bridge_unreachable", 424, Retryable.yes⟩,
    ⟨"rate_limited", 429, Retryable.yes⟩,
    ⟨"bridge_rate_limited", 429, Retryable.yes⟩,
    ⟨"internal_error", 500, Retryable.maybe⟩,
    ⟨"bridge_error", 502, Retryable.maybe⟩ ]

def registryCodes : List String :=
  v2ErrorCodeRegistry.map (fun e => e.code)

/-- Every error code literal raised or emitted by V2Dispatcher
(src/hue_gateway/v2/dispatcher.py). -/
def v2DispatcherErrorCodes : List String :=
  [ "idempotency_key_reuse_mismatch", "idempotency_in_progress", "internal_error",
    "unknown_action", "bridge_unreachable", "bridge_rate_limited", "bridge_error",
    "invalid_args", "link_button_not_pressed", "not_found", "ambiguous_name" ]

/-! ## Bridge pairing response classification

ActionDispatcher._bridge_pair and V2Dispatcher._bridge_pair classify the
appliance's list-shaped /api response identically except for the error code
used on the non-101 and unexpected-shape paths: bridge_pairing_failed in v1,
bridge_error in v2.  A TypeError/ValueError from int(err.get("type", 0))
escapes to the dispatcher's generic handler, which answers 500
internal_error. -/

inductive PairOutcome where
  | paired (applicationKey : String)
  | failed (status : ℤ) (code : String)
deriving DecidableEq, Repr

def classifyPairResponse (fallbackCode : String) (response : J) : PairOutcome :=
  match response with
  | J.arr (first :: _) =>
    (match first with
     | J.obj kvs =>
       (match jLookup kvs "error" with
        | some e =>
          (match e with
           | J.obj ekvs =>
             (match pyIntOf ((jLookup ekvs "type").getD (J.n 0)) with
              | some t =>
                if t = 101 then PairOutcome.failed 409 "link_button_not_pressed"
                else PairOutcome.failed 502 fallbackCode
              | none => PairOutcome.failed 500 "internal_error")
           | _ => PairOutcome.failed 502 fallbackCode)
        | none =>
          (match jLookup kvs "success" with
           | some (J.obj skvs) =>
             (match jLookup skvs "username" with
              | some (J.s k) => PairOutcome.paired k
              | _ => PairOutcome.failed 502 fallbackCode)
           | some _ => PairOutcome.failed 502 fallbackCode
           | none => PairOutcome.failed 502 fallbackCode))
     | _ => PairOutcome.failed 502 fallbackCode)
  | _ => PairOutcome.failed 502 fallbackCode

def v1BridgePair (response : J) : PairOutcome :=
  classifyPairResponse "bridge_pairing_failed" response

def v2BridgePair (response : J) : PairOutcome :=
  classifyPairResponse "bridge_error" response

/-! ## clipv2.request validation

ActionDispatcher._clipv2_request validates method, the /clip/v2/ path
prefix, and host-override fragments in the handler.  V2Dispatcher's handler
checks only the host-override fragments; the method and path prefix are
enforced earlier by the pydantic schema (V2ClipV2RequestArgs, pattern
^/clip/v2/.*). -/

def allowedClipMethods : List String :=
  ["GET", "POST", "PUT", "DELETE", "HEAD", "OPTIONS"]

inductive ClipOutcome where
  | send (method path : String) (body : Option J)
  | reject (status : ℤ) (code : String)
deriving Repr

def v1ClipV2Request (method path : String) (body : Option J) : ClipOutcome :=
  if ¬ allowedClipMethods.contains method then ClipOutcome.reject 400 "invalid_method"
  else if ¬ strStartsWith path "/clip/v2/" then ClipOutcome.reject 400 "invalid_path"
  else if strStartsWith path "//" ∨ strContainsSub path "://" ∨ strContainsSub path ".." then
    ClipOutcome.reject 400 "invalid_path"
  else
    match body with
    | none => ClipOutcome.send method path none
    | some (J.obj kvs) => ClipOutcome.send method path (some (J.obj kvs))
    | some (J.arr xs) => ClipOutcome.send method path (some (J.arr xs))
    | some _ => ClipOutcome.reject 400 "invalid_body"

/-- Schema gate for v2: method is one of the allowed verbs and path matches
the anchored pattern ^/clip/v2/.* . -/
def v2ClipSchemaAccepts (method path : String) : Bool :=
  allowedClipMethods.contains method && strStartsWith path "/clip/v2/"

def v2ClipV2Request (method path : String) (body : Option J) : ClipOutcome :=
  if strStartsWith path "//" ∨ strContainsSub path "://" ∨ strContainsSub path ".." then
    ClipOutcome.reject 400 "invalid_args"
  else ClipOutcome.send method path body

/-! ## v2 HTTP responses and the canonical error envelope -/

structure V2Resp where
  statusCode : ℤ
  body : J
  headers : List (String × String)
deriving Repr

def optStrJ : Option String → J
  | some str => J.s str
  | none => J.null

/-- V2ErrorEnvelope.model_dump: requestId, action, ok:false, error object. -/
def errorEnvelope (requestId action : Option String) (code message : String)
    (details : J) : J :=
  J.obj [("requestId", optStrJ requestId), ("action", optStrJ action), ("ok", J.b false),
         ("error", J.obj [("code", J.s code), ("message", J.s message), ("details", details)])]

/-- V2Dispatcher._error applied to a V2ActionError. -/
def errResp (requestId : Option String) (action : String) (status : ℤ)
    (code message : String) (details : J) (headers : List (String × String)) : V2Resp :=
  { statusCode := status,
    body := errorEnvelope requestId (some action) code message details,
    headers := headers }

/-- body.get(k) for a response body (always a dict in the dispatcher). -/
def jGetBody (body : J) (k : String) : Option J :=
  match body with
  | J.obj kvs => jLookup kvs k
  | _ => none

def jTruthyOpt : Option J → Bool
  | none => false
  | some v => jTruthy v

/-! ## Idempotency engine (src/hue_gateway/v2/idempotency.py)

The idempotency table keyed by (credential_fingerprint, idempotency_key),
as an association list in insertion (rowid) order.  response_json is held
as the parsed JSON value it denotes; mark_completed always serializes a
dict, so parse failure cannot arise for rows the engine wrote. -/

inductive IdemStatus where
  | inProgress
  | completed
deriving DecidableEq, Repr

structure IdemRecord where
  credentialFingerprint : String
  idempotencyKey : String
  action : String
  requestHash : String
  status : IdemStatus
  responseStatusCode : Option ℤ
  responseJson : Option J
  createdAt : ℤ
  updatedAt : ℤ
  expiresAt : ℤ

abbrev IdemTable := List ((String × String) × IdemRecord)

def idemLookup : IdemTable → String → String → Option IdemRecord
  | [], _, _ => none
  | (k, r) :: rest, fp, key => if k = (fp, key) then some r else idemLookup rest fp key

/-- mark_in_progress: INSERT OR IGNORE a fresh in_progress row, then read the
row back; returns (record, inserted). -/
def markInProgress (t : IdemTable) (fp key action reqHash : String) (now ttl : ℤ) :
    IdemRecord × Bool × IdemTable :=
  let expiresAt := now + max 1 ttl
  match idemLookup t fp key with
  | some r => (r, false, t)
  | none =>
    let r : IdemRecord :=
      ⟨fp, key, action, reqHash, IdemStatus.inProgress, none, none, now, now, expiresAt⟩
    (r, true, t ++ [((fp, key), r)])

/-- mark_completed: UPDATE the row to completed with the stored response and
a refreshed expiry. -/
def markCompleted (t : IdemTable) (fp key action reqHash : String) (statusCode : ℤ)
    (responseObj : J) (now ttl : ℤ) : IdemTable :=
  let expiresAt := now + max 1 ttl
  t.map (fun kr =>
    if kr.1 = (fp, key) then
      (kr.1, { kr.2 with
        action := action, requestHash := reqHash, status := IdemStatus.completed,
        responseStatusCode := some statusCode, responseJson := some responseObj,
        updatedAt := now, expiresAt := expiresAt })
    else kr)

/-- cleanup_expired: delete rows with expires_at <= now, then enforce the
hard cap by deleting the oldest rows by updated_at (insertion order breaks
ties, matching SQLite's stable scan). -/
def cleanupExpired (t : IdemTable) (now : ℤ) (maxRows : ℕ) : IdemTable :=
  let t1 := t.filter (fun kr => decide (now < kr.2.expiresAt))
  if t1.length ≤ maxRows then t1
  else
    let toDelete :=
      ((t1.mergeSort (fun a b => a.2.updatedAt ≤ b.2.updatedAt)).take
        (t1.length - maxRows)).map (fun kr => kr.1)
    t1.filter (fun kr => ¬ toDelete.contains kr.1)

/-- Response produced by V2Dispatcher.dispatch when mark_in_progress found an
existing row (the inserted=False branches, dispatcher.py lines 73-138). -/
def existingRecordResponse (rec : IdemRecord) (action reqHash : String)
    (requestId : Option String) (key : String) : V2Resp :=
  match rec.status with
  | IdemStatus.inProgress =>
    if rec.action ≠ action ∨ rec.requestHash ≠ reqHash then
      errResp requestId action 409 "idempotency_key_reuse_mismatch"
        "Idempotency key reused with a different request"
        (J.obj [("idempotencyKey", J.s key)]) []
    else
      errResp requestId action 409 "idempotency_in_progress"
        "An identical request is still in progress"
        (J.obj [("retryAfterMs", J.n 250)]) [("Retry-After", "1")]
  | IdemStatus.completed =>
    if rec.action ≠ action ∨ rec.requestHash ≠ reqHash then
      errResp requestId action 409 "idempotency_key_reuse_mismatch"
        "Idempotency key reused with a different request"
        (J.obj [("idempotencyKey", J.s key)]) []
    else
      match rec.responseStatusCode, rec.responseJson with
      | some sc, some stored =>
        (match stored with
         | J.obj kvs =>
           { statusCode := sc,
             body := J.obj (jSetKey kvs "requestId" (optStrJ requestId)),
             headers := [] }
         | _ =>
           errResp requestId action 500 "internal_error"
             "Stored idempotency response is not a JSON object"
             (J.obj [("idempotencyKey", J.s key)]) [])
      | _, _ =>
        errResp requestId action 500 "internal_error"
          "Idempotency record missing stored response"
          (J.obj [("idempotencyKey", J.s key)]) []

/-- V2Dispatcher.dispatch idempotency wrapper.  impl stands for the response
_dispatch_impl would produce for this request. -/
def dispatchWithIdempotency (t : IdemTable) (fp : String) (key : Option String)
    (action reqHash : String) (requestId : Option String) (now ttl : ℤ)
    (impl : V2Resp) : V2Resp × IdemTable :=
  match key with
  | none => (impl, t)
  | some k =>
    if k = "" then (impl, t)
    else
      let mip := markInProgress t fp k action reqHash now ttl
      if mip.2.1 = false then
        (existingRecordResponse mip.1 action reqHash requestId k, mip.2.2)
      else
        (impl, markCompleted mip.2.2 fp k action reqHash impl.statusCode impl.body now ttl)

/-! ## Light-state payload construction -/

/-- Python isinstance(v, (int, float)) admits bools (a bool is an int);
returns the numeric value float() would produce. -/
def pyNumOf : J → Option ℚ
  | J.b v => some (if v then 1 else 0)
  | J.n q => some q
  | _ => none

/-- Python round() (banker's rounding, half to even) followed by int(). -/
def roundHalfEven (q : ℚ) : ℤ :=
  let f := ⌊q⌋
  let frac := q - f
  if frac < 1/2 then f
  else if 1/2 < frac then f + 1
  else if f % 2 = 0 then f else f + 1

/-- ActionDispatcher._build_light_payload (v1): validate and translate the
args dict into the appliance payload; brightness is clamped with
max(0.1, min(100.0, b)). -/
def v1BuildLightPayload (args : List (String × J)) :
    Except (ℤ × String) (List (String × J)) := do
  let mut payload : List (String × J) := []
  match jLookup args "on" with
  | none => pure ()
  | some (J.b v) => payload := payload ++ [("on", J.obj [("on", J.b v)])]
  | some _ => throw ((400 : ℤ), "invalid_on")
  match jLookup args "brightness" with
  | none => pure ()
  | some J.null => pure ()
  | some jv =>
    match pyNumOf jv with
    | some q =>
      let brightness := max (1/10) (min 100 q)
      payload := payload ++ [("dimming", J.obj [("brightness", J.n brightness)])]
    | none => throw ((400 : ℤ), "invalid_brightness")
  match jLookup args "colorTempK" with
  | none => pure ()
  | some J.null => pure ()
  | some jv =>
    match pyNumOf jv with
    | some k =>
      if k ≤ 0 then throw ((400 : ℤ), "invalid_colorTempK")
      else
        let mirek := roundHalfEven (1000000 / k)
        payload := payload ++ [("color_temperature", J.obj [("mirek", J.n mirek)])]
    | none => throw ((400 : ℤ), "invalid_colorTempK")
  match jLookup args "xy" with
  | none => pure ()
  | some J.null => pure ()
  | some jv =>
    match jv with
    | J.obj xykvs =>
      match jLookup xykvs "x", jLookup xykvs "y" with
      | some jx, some jy =>
        match pyNumOf jx, pyNumOf jy with
        | some x, some y =>
          payload := payload ++
            [("color", J.obj [("xy", J.obj [("x", J.n x), ("y", J.n y)])])]
        | _, _ => throw ((400 : ℤ), "invalid_xy")
      | _, _ => throw ((400 : ℤ), "invalid_xy")
    | _ => throw ((400 : ℤ), "invalid_xy")
  if payload.isEmpty then throw ((400 : ℤ), "empty_state")
  return payload

structure V2XY where
  x : ℚ
  y : ℚ
deriving DecidableEq, Repr

/-- V2LightState after pydantic validation (brightness constrained to
[0, 100], colorTempK a positive int).  The source field is called `on`,
which is reserved by Mathlib, so it is named onVal here. -/
structure V2LightState where
  onVal : Option Bool := none
  brightness : Option ℚ := none
  colorTempK : Option ℤ := none
  xy : Option V2XY := none
deriving DecidableEq, Repr

structure WarningMsg where
  code : String
  message : String
  details : J
deriving Repr

/-- V2Dispatcher._build_applied_payload: build the applied state, warning
list and appliance payload from the requested state and the cached resource
dict (None when the target is not cached). -/
def v2BuildAppliedPayload (requested : V2LightState)
    (resource : Option (List (String × J))) :
    Except (ℤ × String) (V2LightState × List WarningMsg × List (String × J)) := do
  let mut applied : V2LightState := {}
  let mut warnings : List WarningMsg := []
  let mut payload : List (String × J) := []

  match requested.onVal with
  | some v =>
    applied := { applied with onVal := some v }
    payload := payload ++ [("on", J.obj [("on", J.b v)])]
  | none => pure ()

  match requested.brightness with
  | some b =>
    let mut clamped := max 0 (min 100 b)
    if clamped = 0 then
      clamped := 1/10
    if clamped ≠ b then
      warnings := warnings ++
        [⟨"clamped", "brightness was clamped",
          J.obj [("requested", J.n b), ("applied", J.n clamped)]⟩]
    applied := { applied with brightness := some clamped }
    payload := payload ++ [("dimming", J.obj [("brightness", J.n clamped)])]
  | none => pure ()

  match requested.colorTempK with
  | some kk =>
    let k : ℚ := kk
    if k ≤ 0 then
      throw ((400 : ℤ), "invalid_args")
    else if resource.isSome ∧ ¬ (resource.getD []).any (fun p => p.1 = "color_temperature") then
      warnings := warnings ++ [⟨"unsupported", "colorTempK not supported by target", J.obj []⟩]
    else
      let mut mirek := roundHalfEven (1000000 / k)
      match resource with
      | some res =>
        match jLookup res "color_temperature" with
        | some (J.obj ctkvs) =>
          match jLookup ctkvs "mirek_valid_range" with
          | some (J.obj vrkvs) =>
            match (jLookup vrkvs "minimum").bind pyNumOf,
                  (jLookup vrkvs "maximum").bind pyNumOf with
            | some mnq, some mxq =>
              let mn := pyTrunc mnq
              let mx := pyTrunc mxq
              let cm := max mn (min mx mirek)
              if cm ≠ mirek then
                warnings := warnings ++
                  [⟨"clamped", "colorTempK was clamped",
                    J.obj [("requestedMirek", J.n mirek), ("appliedMirek", J.n cm)]⟩]
              mirek := cm
            | _, _ => pure ()
          | _ => pure ()
        | _ => pure ()
      | none => pure ()
      payload := payload ++ [("color_temperature", J.obj [("mirek", J.n mirek)])]
      applied := { applied with
        colorTempK := if 0 < mirek then some (roundHalfEven (1000000 / (mirek : ℚ))) else none }
  | none => pure ()

  match requested.xy with
  | some p =>
    if resource.isSome ∧ ¬ (resource.getD []).any (fun q => q.1 = "color") then
      warnings := warnings ++ [⟨"unsupported", "xy not supported by target", J.obj []⟩]
    else
      payload := payload ++
        [("color", J.obj [("xy", J.obj [("x", J.n p.x), ("y", J.n p.y)])])]
      applied := { applied with xy := some p }
  | none => pure ()

  if payload.isEmpty then throw ((400 : ℤ), "invalid_args")
  return (applied, warnings, payload)

/-! ## actions.batch (V2Dispatcher._actions_batch)

Each step is dispatched through the same dispatcher; the oracle gives the
response dispatch returns for step i (with its derived ids). -/

structure BatchStep where
  action : String
  requestId : Option String := none
  idempotencyKey : Option String := none

/-- Derived per-step id: f"{base}:{i}" when the batch id is truthy. -/
def deriveStepId (base : Option String) (i : ℕ) : Option String :=
  match base with
  | some r => if r = "" then none else some (r ++ ":" ++ toString i)
  | none => none

/-- One per-step audit record, as the dict built in the loop body. -/
def batchStepRecord (i : ℕ) (step : BatchStep) (stepRid stepKey : Option String)
    (resp : V2Resp) : J :=
  let base : List (String × J) :=
    [("index", J.n i), ("action", J.s step.action), ("requestId", optStrJ stepRid),
     ("idempotencyKey", optStrJ stepKey), ("ok", J.b (jTruthyOpt (jGetBody resp.body "ok"))),
     ("status", J.n resp.statusCode)]
  match jGetBody resp.body "ok" with
  | some (J.b true) => J.obj (base ++ [("result", (jGetBody resp.body "result").getD J.null)])
  | _ => J.obj (base ++ [("error", (jGetBody resp.body "error").getD J.null)])

/-- failed_error: the step body's error member when it is a dict. -/
def batchFailedError (resp : V2Resp) : Option J :=
  match jGetBody resp.body "error" with
  | some (J.obj ekvs) => some (J.obj ekvs)
  | _ => none

/-- Step loop of _actions_batch: accumulates audit records and the first
failure; stops at the first response with status >= 400 when
continueOnError is false. -/
def batchLoop (oracle : ℕ → V2Resp) (batchRid batchKey : Option String) (cont : Bool) :
    List BatchStep → ℕ → List J → Option (ℕ × ℤ × Option J) →
    List J × Option (ℕ × ℤ × Option J)
  | [], _, acc, failed => (acc, failed)
  | step :: rest, i, acc, failed =>
    let stepRid := pyOrStr step.requestId (deriveStepId batchRid i)
    let stepKey := pyOrStr step.idempotencyKey (deriveStepId batchKey i)
    let resp := oracle i
    let record := batchStepRecord i step stepRid stepKey resp
    let failed' :=
      if 400 ≤ resp.statusCode then
        (if failed.isNone then some (i, resp.statusCode, batchFailedError resp) else failed)
      else failed
    if cont = false ∧ 400 ≤ resp.statusCode then
      (acc ++ [record], failed')
    else
      batchLoop oracle batchRid batchKey cont rest (i + 1) (acc ++ [record]) failed'

/-- V2Dispatcher._actions_batch, including the catch in _dispatch_impl that
turns the raised V2ActionError into the canonical envelope. -/
def actionsBatch (oracle : ℕ → V2Resp) (cont : Bool) (steps : List BatchStep)
    (requestId payloadRid headerKey payloadKey : Option String) : V2Resp :=
  let batchRid := pyOrStr requestId payloadRid
  let batchKey := pyOrStr headerKey payloadKey
  let out := batchLoop oracle batchRid batchKey cont steps 0 [] none
  let results := out.1
  if cont then
    { statusCode := 207,
      body := J.obj [("requestId", optStrJ requestId), ("action", J.s "actions.batch"),
        ("ok", J.b true),
        ("result", J.obj [("continueOnError", J.b true), ("steps", J.arr results)])],
      headers := [] }
  else
    match out.2 with
    | none =>
      { statusCode := 200,
        body := J.obj [("requestId", optStrJ requestId), ("action", J.s "actions.batch"),
          ("ok", J.b true),
          ("result", J.obj [("continueOnError", J.b false), ("steps", J.arr results)])],
        headers := [] }
    | some (failedIndex, failedStatus, failedError) =>
      let errCode :=
        match failedError with
        | some (J.obj ekvs) =>
          (match jLookup ekvs "code" with
           | some (J.s c) => c
           | _ => "internal_error")
        | _ => "internal_error"
      errResp requestId "actions.batch" failedStatus errCode "Batch step failed"
        (J.obj [("failedStepIndex", J.n failedIndex), ("steps", J.arr results)]) []

/-! ## Helper definitions used by theorem statements -/

/-- second = scored[1][0] if len(scored) > 1 else 0.0 . -/
def secondScore : List ScoredCand → ℚ
  | [] => 0
  | s2 :: _ => s2.score

def isAmbiguousOutcome : ResolveOutcome → Bool
  | ResolveOutcome.ambiguous _ => true
  | _ => false

/-- Shape predicate: the /api response is a list whose first element carries
an error object whose type field converts to the integer 101. -/
def pairIs101Error (response : J) : Bool :=
  match response with
  | J.arr (J.obj kvs :: _) =>
    (match jLookup kvs "error" with
     | some (J.obj ekvs) =>
       (match pyIntOf ((jLookup ekvs "type").getD (J.n 0)) with
        | some t => t == 101
        | none => false)
     | _ => false)
  | _ => false

/-- Shape predicate: the /api response is a list whose first element carries
no error member and a success object with a string username. -/
def pairIsSuccessUsername (response : J) : Bool :=
  match response with
  | J.arr (J.obj kvs :: _) =>
    (match jLookup kvs "error" with
     | some _ => false
     | none =>
       (match jLookup kvs "success" with
        | some (J.obj skvs) =>
          (match jLookup skvs "username" with
           | some (J.s _) => true
           | _ => false)
        | _ => false))
  | _ => false

/-- Shape predicate: the first element carries an error object whose type
field makes int() raise (None, list, dict, or a non-integer string). -/
def pairTypeConvFails (response : J) : Bool :=
  match response with
  | J.arr (J.obj kvs :: _) =>
    (match jLookup kvs "error" with
     | some (J.obj ekvs) => (pyIntOf ((jLookup ekvs "type").getD (J.n 0))).isNone
     | _ => false)
  | _ => false

/-- Reachability invariant of the bus: ring cursors are strictly increasing,
positive, and bounded by the state cursor. -/
def BusInv (s : BusState) : Prop :=
  s.ring.Pairwise (fun a b => a.1 < b.1) ∧
  (∀ it ∈ s.ring, 0 < it.1 ∧ it.1 ≤ s.cursor) ∧ 0 ≤ s.cursor

/-! # Theorems -/

/-- C8 counterexample: with rate 3, capacity 1, an empty bucket and cost 1,
the code returns hint 334 = int(1000/3) + 1, while the claimed formula
ceil((cost - tokens)/rate * 1000) + 1 gives 335. -/
theorem c8_counterexample :
    allowWithRetryAfterMs (mkLimiterParams 3 1) 0 0 1 = (false, 334, 0) ∧
    (⌈((1 : ℚ) - 0) / 3 * 1000⌉ + 1 : ℤ) = 335 ∧ (334 : ℤ) ≠ 335 := by
  refine ⟨by norm_num [allowWithRetryAfterMs, mkLimiterParams, pyTrunc], ?_, by norm_num⟩
  have h : ((1 : ℚ) - 0) / 3 * 1000 = 1000 / 3 := by ring
  have h334 : (⌈(1000 : ℚ) / 3⌉ : ℤ) = 334 := by
    rw [Int.ceil_eq_iff]
    norm_num
  rw [h, h334]
  norm_num

/-- C8 (amended): a denied call with current tokens t < cost and positive
rate returns the hint floor((cost - t)/rate * 1000) + 1 (Python int()
truncation, not ceil); zero rate denies with hint 0; an allowed call
subtracts exactly cost and returns a zero hint. -/
theorem c8_amended (p : LimiterParams) (tokens elapsed cost : ℚ) :
    (cost ≤ min p.capacity (tokens + elapsed * p.rate) →
      allowWithRetryAfterMs p tokens elapsed cost =
        (true, 0, min p.capacity (tokens + elapsed * p.rate) - cost)) ∧
    (min p.capacity (tokens + elapsed * p.rate) < cost → 0 < p.rate →
      allowWithRetryAfterMs p tokens elapsed cost =
        (false, ⌊(cost - min p.capacity (tokens + elapsed * p.rate)) / p.rate * 1000⌋ + 1,
          min p.capacity (tokens + elapsed * p.rate))) ∧
    (min p.capacity (tokens + elapsed * p.rate) < cost → p.rate = 0 →
      allowWithRetryAfterMs p tokens elapsed cost =
        (false, 0, min p.capacity (tokens + elapsed * p.rate))) := by
  refine ⟨?_, ?_, ?_⟩
  · intro h
    simp only [allowWithRetryAfterMs]
    rw [if_pos h]
  · intro h1 h2
    have hne : ¬ cost ≤ min p.capacity (tokens + elapsed * p.rate) := not_le.mpr h1
    have hr : ¬ p.rate ≤ 0 := not_le.mpr h2
    have hmax : max 0 (cost - min p.capacity (tokens + elapsed * p.rate)) =
        cost - min p.capacity (tokens + elapsed * p.rate) :=
      max_eq_right (by linarith)
    have hq : 0 ≤ (cost - min p.capacity (tokens + elapsed * p.rate)) / p.rate * 1000 := by
      have := div_nonneg (sub_pos.mpr h1).le h2.le
      linarith
    simp only [allowWithRetryAfterMs]
    rw [if_neg hne]
    simp only [hmax]
    rw [if_neg hr]
    simp only [pyTrunc]
    rw [if_pos hq]
  · intro h1 h2
    have hne : ¬ cost ≤ min p.capacity (tokens + elapsed * p.rate) := not_le.mpr h1
    have hr : p.rate ≤ 0 := le_of_eq h2
    simp only [allowWithRetryAfterMs]
    rw [if_neg hne, if_pos hr]

/-- C8 witness: the amended hint formula applied at rate 3, capacity 1,
empty bucket, cost 1 gives 334. -/
theorem c8_amended_witness :
    allowWithRetryAfterMs (mkLimiterParams 3 1) 0 0 1 =
      (false, ⌊((1 : ℚ) - min (1 : ℚ) 0) / 3 * 1000⌋ + 1, min (1 : ℚ) 0) := by
  have h := (c8_amended (mkLimiterParams 3 1) 0 0 1).2.1
    (by norm_num [mkLimiterParams]) (by norm_num [mkLimiterParams])
  simpa [mkLimiterParams] using h

/-- C7 counterexample: two candidates tying at similarity 1.0 with the
default thresholds (margin 0.05 > 0) are resolved to the first, not
reported ambiguous, because the tie score clears the autopick threshold. -/
theorem c7_counterexample :
    resolveScored defaultResolveConfig [⟨1, "r1", none⟩, ⟨1, "r2", none⟩] =
      ResolveOutcome.resolved "r1" none 1 ∧
    isAmbiguousOutcome
      (resolveScored defaultResolveConfig [⟨1, "r1", none⟩, ⟨1, "r2", none⟩]) = false ∧
    (0 : ℚ) < defaultResolveConfig.margin := by
  refine ⟨?_, ?_, by norm_num [defaultResolveConfig]⟩ <;>
    norm_num [resolveScored, defaultResolveConfig, isAmbiguousOutcome]

/-- C7 (amended): over a scored candidate list sorted descending, best ≥
autopick resolves to best; else best ≥ match_threshold with a margin over
the runner-up resolves to best; otherwise the outcome is ambiguous_name
with at most five top candidates.  An exact tie of the top two with a
positive margin is ambiguous provided the tie score is below the autopick
threshold; an empty candidate list is not_found. -/
theorem c7_amended (cfg : ResolveConfig) (best : ScoredCand) (rest : List ScoredCand)
    (scoreOf : String → ℚ) :
    (cfg.autopickThreshold ≤ best.score →
      resolveScored cfg (best :: rest) =
        ResolveOutcome.resolved best.rid best.display best.score) ∧
    (best.score < cfg.autopickThreshold → cfg.matchThreshold ≤ best.score →
      cfg.margin ≤ best.score - secondScore rest →
      resolveScored cfg (best :: rest) =
        ResolveOutcome.resolved best.rid best.display best.score) ∧
    (best.score < cfg.autopickThreshold →
      ¬ (cfg.matchThreshold ≤ best.score ∧ cfg.margin ≤ best.score - secondScore rest) →
      resolveScored cfg (best :: rest) = ResolveOutcome.ambiguous ((best :: rest).take 5) ∧
        ((best :: rest).take 5).length ≤ 5) ∧
    (∀ s2 rest2, rest = s2 :: rest2 → s2.score = best.score → 0 < cfg.margin →
      best.score < cfg.autopickThreshold →
      resolveScored cfg (best :: rest) = ResolveOutcome.ambiguous ((best :: rest).take 5)) ∧
    resolveName cfg scoreOf [] = ResolveOutcome.notFound := by
  have hsec : (match rest with | [] => (0 : ℚ) | s2 :: _ => s2.score) = secondScore rest := by
    cases rest <;> rfl
  refine ⟨?_, ?_, ?_, ?_, rfl⟩
  · intro h
    simp only [resolveScored]
    rw [if_pos h]
  · intro h1 h2 h3
    simp only [resolveScored]
    rw [if_neg (not_le.mpr h1)]
    simp only [hsec]
    rw [if_pos ⟨h2, h3⟩]
  · intro h1 h2
    refine ⟨?_, by simp [List.length_take]⟩
    simp only [resolveScored]
    rw [if_neg (not_le.mpr h1)]
    simp only [hsec]
    rw [if_neg h2]
  · intro s2 rest2 hrest htie hmargin h1
    subst hrest
    simp only [resolveScored]
    rw [if_neg (not_le.mpr h1)]
    have : ¬ (cfg.matchThreshold ≤ best.score ∧ cfg.margin ≤ best.score - s2.score) := by
      rintro ⟨-, hm⟩
      rw [htie] at hm
      simp at hm
      linarith
    simp only [secondScore] at this
    rw [if_neg this]

/-- C7 witness: two candidates tying at 0.92 (below autopick, positive
margin) are reported ambiguous. -/
theorem c7_amended_witness :
    resolveScored defaultResolveConfig [⟨92/100, "r1", none⟩, ⟨92/100, "r2", none⟩] =
      ResolveOutcome.ambiguous [⟨92/100, "r1", none⟩, ⟨92/100, "r2", none⟩] := by
  have h := (c7_amended defaultResolveConfig ⟨92/100, "r1", none⟩
      [⟨92/100, "r2", none⟩] (fun _ => 0)).2.2.2.1 ⟨92/100, "r2", none⟩ [] rfl rfl
    (by norm_num [defaultResolveConfig]) (by norm_num [defaultResolveConfig])
  simpa using h

/-- C6 counterexample: the path /clip/v2//x contains "//" yet both the v1
and v2 clipv2.request validators accept it and issue the request; the code
only rejects paths that START with "//". -/
theorem c6_counterexample :
    strContainsSub "/clip/v2//x" "//" = true ∧
    v1ClipV2Request "GET" "/clip/v2//x" none =
      ClipOutcome.send "GET" "/clip/v2//x" none ∧
    v2ClipSchemaAccepts "GET" "/clip/v2//x" = true ∧
    v2ClipV2Request "GET" "/clip/v2//x" none =
      ClipOutcome.send "GET" "/clip/v2//x" none := by
  exact ⟨rfl, rfl, rfl, rfl⟩

/-- C6 (amended): for an allowed method, a path without the /clip/v2/
prefix is rejected invalid_path by v1 (v2 rejects it at the schema); a path
that starts with "//" or contains "://" or ".." is rejected (invalid_path
in v1, invalid_args in v2); consequently neither version ever sends a
request whose path does not begin with /clip/v2/ (for v2, given the schema
gate that runs first). -/
theorem c6_amended (method path : String) (body : Option J) :
    (allowedClipMethods.contains method = true → strStartsWith path "/clip/v2/" = false →
      v1ClipV2Request method path body = ClipOutcome.reject 400 "invalid_path") ∧
    ((strStartsWith path "//" = true ∨ strContainsSub path "://" = true ∨
        strContainsSub path ".." = true) →
      (allowedClipMethods.contains method = true → strStartsWith path "/clip/v2/" = true →
        v1ClipV2Request method path body = ClipOutcome.reject 400 "invalid_path") ∧
      v2ClipV2Request method path body = ClipOutcome.reject 400 "invalid_args") ∧
    (∀ m p b2, v1ClipV2Request method path body = ClipOutcome.send m p b2 →
      p = path ∧ strStartsWith path "/clip/v2/" = true) ∧
    (∀ m p b2, v2ClipSchemaAccepts method path = true →
      v2ClipV2Request method path body = ClipOutcome.send m p b2 →
      p = path ∧ strStartsWith path "/clip/v2/" = true) := by
  refine ⟨?_, ?_, ?_, ?_⟩
  · intro hm hp
    simp only [v1ClipV2Request]
    rw [if_neg (not_not_intro hm), if_pos (by simp [hp])]
  · intro hover
    constructor
    · intro hm hp
      simp only [v1ClipV2Request]
      rw [if_neg (not_not_intro hm), if_neg (by simp [hp]), if_pos (by tauto)]
    · simp only [v2ClipV2Request]
      rw [if_pos (by tauto)]
  · intro m p b2 h
    simp only [v1ClipV2Request] at h
    by_cases hm : allowedClipMethods.contains method = true
    · rw [if_neg (not_not_intro hm)] at h
      by_cases hp : strStartsWith path "/clip/v2/" = true
      · rw [if_neg (not_not_intro hp)] at h
        split at h
        · exact absurd h (by simp)
        · split at h <;> simp_all
      · rw [if_pos (by simpa using hp)] at h
        exact absurd h (by simp)
    · rw [if_pos (by simpa using hm)] at h
      exact absurd h (by simp)
  · intro m p b2 hs h
    have hp : strStartsWith path "/clip/v2/" = true := by
      have h2 := hs
      simp only [v2ClipSchemaAccepts, Bool.and_eq_true] at h2
      exact h2.2
    simp only [v2ClipV2Request] at h
    split at h
    · exact absurd h (by simp)
    · refine ⟨?_, hp⟩
      cases h
      rfl

/-- C6 witness: a path without the /clip/v2/ prefix is rejected by the v1
handler with 400 invalid_path. -/
theorem c6_amended_witness :
    v1ClipV2Request "GET" "/api/config" none = ClipOutcome.reject 400 "invalid_path" :=
  (c6_amended "GET" "/api/config" none).1 rfl rfl

/-- C5 counterexample: on an empty-list pairing response, v1 fails with 502
bridge_pairing_failed (not bridge_error); on an error whose type does not
convert to an int, v2 fails 500 internal_error; and bridge_pairing_failed
is not an entry of the canonical error registry. -/
theorem c5_counterexample :
    v1BridgePair (J.arr []) = PairOutcome.failed 502 "bridge_pairing_failed" ∧
    v2BridgePair (J.arr [J.obj [("error", J.obj [("type", J.s "x")])]]) =
      PairOutcome.failed 500 "internal_error" ∧
    "bridge_pairing_failed" ∉ registryCodes := by
  refine ⟨rfl, rfl, ?_⟩
  simp [registryCodes, v2ErrorCodeRegistry]

lemma classify_101 (fb : String) (r : J) (h101 : pairIs101Error r = true) :
    classifyPairResponse fb r = PairOutcome.failed 409 "link_button_not_pressed" := by
  cases r
  case arr xs =>
    cases xs with
    | nil => simp [pairIs101Error] at h101
    | cons first tl =>
      cases first
      case obj kvs =>
        rcases herr : jLookup kvs "error" with _ | e
        · simp [pairIs101Error, herr] at h101
        · cases e
          case obj ekvs =>
            rcases hpc : pyIntOf ((jLookup ekvs "type").getD (J.n 0)) with _ | t
            · simp [pairIs101Error, herr, hpc] at h101
            · have ht : t = 101 := by simpa [pairIs101Error, herr, hpc] using h101
              simp [classifyPairResponse, herr, hpc, ht]
          all_goals simp [pairIs101Error, herr] at h101
      all_goals simp [pairIs101Error] at h101
  all_goals simp [pairIs101Error] at h101

lemma classify_fallback (fb : String) (r : J)
    (h101 : pairIs101Error r = false) (hsucc : pairIsSuccessUsername r = false)
    (hconv : pairTypeConvFails r = false) :
    classifyPairResponse fb r = PairOutcome.failed 502 fb := by
  cases r
  case arr xs =>
    cases xs with
    | nil => rfl
    | cons first tl =>
      cases first
      case obj kvs =>
        rcases herr : jLookup kvs "error" with _ | e
        · rcases hsu : jLookup kvs "success" with _ | su
          · simp [classifyPairResponse, herr, hsu]
          · cases su
            case obj skvs =>
              rcases hun : jLookup skvs "username" with _ | u
              · simp [classifyPairResponse, herr, hsu, hun]
              · cases u
                case s k =>
                  exfalso
                  simp [pairIsSuccessUsername, herr, hsu, hun] at hsucc
                all_goals simp [classifyPairResponse, herr, hsu, hun]
            all_goals simp [classifyPairResponse, herr, hsu]
        · cases e
          case obj ekvs =>
            rcases hpc : pyIntOf ((jLookup ekvs "type").getD (J.n 0)) with _ | t
            · exfalso
              simp [pairTypeConvFails, herr, hpc] at hconv
            · have ht : ¬ t = 101 := by
                intro h
                subst h
                simp [pairIs101Error, herr, hpc] at h101
              simp [classifyPairResponse, herr, hpc, ht]
          all_goals simp [classifyPairResponse, herr]
      all_goals rfl
  all_goals rfl

/-- C5 (amended): the 101-error shape yields 409 link_button_not_pressed in
both dispatchers; any other response that is not a success-username shape
and whose error.type converts cleanly yields 502 with code bridge_error in
v2 but bridge_pairing_failed in v1; every v2-dispatcher error code is in
the canonical registry, while bridge_pairing_failed is not. -/
theorem c5_amended (response : J) :
    (pairIs101Error response = true →
      v1BridgePair response = PairOutcome.failed 409 "link_button_not_pressed" ∧
      v2BridgePair response = PairOutcome.failed 409 "link_button_not_pressed") ∧
    (pairIs101Error response = false → pairIsSuccessUsername response = false →
      pairTypeConvFails response = false →
      v2BridgePair response = PairOutcome.failed 502 "bridge_error" ∧
      v1BridgePair response = PairOutcome.failed 502 "bridge_pairing_failed") ∧
    (∀ c ∈ v2DispatcherErrorCodes, c ∈ registryCodes) ∧
    "bridge_pairing_failed" ∉ registryCodes := by
  refine ⟨?_, ?_, by decide, by simp [registryCodes, v2ErrorCodeRegistry]⟩
  · intro h101
    exact ⟨classify_101 _ _ h101, classify_101 _ _ h101⟩
  · intro h101 hsucc hconv
    exact ⟨classify_fallback _ _ h101 hsucc hconv, classify_fallback _ _ h101 hsucc hconv⟩

/-- C5 witness: a list-shaped error response with type 42 is classified 502
bridge_error by v2 and 502 bridge_pairing_failed by v1. -/
theorem c5_amended_witness :
    v2BridgePair (J.arr [J.obj [("error", J.obj [("type", J.n 42)])]]) =
      PairOutcome.failed 502 "bridge_error" ∧
    v1BridgePair (J.arr [J.obj [("error", J.obj [("type", J.n 42)])]]) =
      PairOutcome.failed 502 "bridge_pairing_failed" :=
  (c5_amended (J.arr [J.obj [("error", J.obj [("type", J.n 42)])]])).2.1 rfl rfl rfl

lemma busInv_init (n : ℕ) : BusInv (busInit n) := by
  refine ⟨List.Pairwise.nil, ?_, le_refl 0⟩
  intro it h
  simp [busInit] at h

lemma busInv_publish (s : BusState) (ev : J) (h : BusInv s) : BusInv (busPublish s ev) := by
  obtain ⟨hpw, hbnd, hc⟩ := h
  have hsub : (if s.ring.length = s.maxlen then s.ring.drop 1 else s.ring).Sublist s.ring := by
    split
    · exact List.drop_sublist 1 s.ring
    · exact List.Sublist.refl s.ring
  refine ⟨?_, ?_, by simp only [busPublish]; linarith⟩
  · simp only [busPublish]
    rw [List.pairwise_append]
    refine ⟨hpw.sublist hsub, by simp, ?_⟩
    intro a ha b hb
    have hmem := hsub.subset ha
    have := (hbnd a hmem).2
    simp only [List.mem_singleton] at hb
    subst hb
    simpa using by linarith
  · intro it hit
    simp only [busPublish, List.mem_append] at hit
    rcases hit with hit | hit
    · have hmem := hsub.subset hit
      obtain ⟨h1, h2⟩ := hbnd it hmem
      exact ⟨h1, by simpa [busPublish] using by linarith⟩
    · simp only [List.mem_singleton] at hit
      subst hit
      exact ⟨by simpa using by linarith, by simp [busPublish]⟩

lemma busInv_publishAll (s : BusState) (evs : List J) (h : BusInv s) :
    BusInv (busPublishAll s evs) := by
  induction evs generalizing s with
  | nil => simpa [busPublishAll] using h
  | cons e es ih =>
    simpa [busPublishAll] using ih (busPublish s e) (busInv_publish s e h)

lemma replayFrom_mem (items : List (ℤ × J)) (lc : ℤ)
    (hpos : ∀ it ∈ items, 0 < it.1) (hmem : ∃ it ∈ items, it.1 = lc) :
    replayFrom items lc = some (items.filter (fun it => lc < it.1)) := by
  obtain ⟨it0, hin, heq⟩ := hmem
  have hne : items ≠ [] := by
    intro h
    subst h
    simp at hin
  have hlc : 0 < lc := heq ▸ hpos it0 hin
  have hany : items.any (fun it => decide (it.1 = lc)) = true :=
    List.any_eq_true.mpr ⟨it0, hin, by simp [heq]⟩
  unfold replayFrom
  rw [if_neg (by simp [List.isEmpty_iff, hne]), if_neg (not_le.mpr hlc), if_pos hany]

lemma replayFrom_evicted (items : List (ℤ × J)) (lc : ℤ)
    (hne : items ≠ []) (hlc : 0 < lc) (hnm : ∀ it ∈ items, it.1 ≠ lc) :
    replayFrom items lc = none := by
  have hany : items.any (fun it => decide (it.1 = lc)) = false := by
    rw [List.any_eq_false]
    intro it hit
    simpa using hnm it hit
  unfold replayFrom
  rw [if_neg (by simp [List.isEmpty_iff, hne]), if_neg (not_le.mpr hlc),
    if_neg (by simp [hany])]

lemma replayFrom_empty_only (items : List (ℤ × J)) (lc : ℤ)
    (h : replayFrom items lc = some []) :
    items = [] ∨ ∀ it ∈ items, it.1 ≤ lc := by
  by_cases he : items = []
  · exact Or.inl he
  right
  unfold replayFrom at h
  rw [if_neg (by simp [List.isEmpty_iff, he])] at h
  by_cases h0 : lc ≤ 0
  · rw [if_pos h0] at h
    exact absurd (Option.some_injective _ h) he
  rw [if_neg h0] at h
  by_cases hany : items.any (fun it => decide (it.1 = lc)) = true
  · rw [if_pos hany] at h
    have hfil := Option.some_injective _ h
    intro it hit
    by_contra hgt
    have hlt : lc < it.1 := lt_of_not_le hgt
    have : it ∈ items.filter (fun it => lc < it.1) :=
      List.mem_filter.mpr ⟨hit, by simpa using hlt⟩
    rw [hfil] at this
    simp at this
  · rw [if_neg (by simpa using hany)] at h
    exact absurd h (by simp)

/-- C2 counterexample: after a single publish the ring is non-empty, yet
replay_from at the newest cursor returns the empty list — contradicting
"[] only if the ring is empty". -/
theorem c2_counterexample :
    replayFrom (busPublish (busInit 500) J.null).ring 1 = some [] ∧
    (busPublish (busInit 500) J.null).ring.isEmpty = false :=
  ⟨rfl, rfl⟩

/-- C2 (amended): on every reachable bus state, the ring is strictly
cursor-sorted; replay_from of a cursor still in the ring returns exactly
the items with larger cursor in cursor order; a positive cursor absent from
a non-empty ring returns null; and the empty list is returned only when
the ring is empty or the cursor is at least every ring cursor (the caller
is caught up). -/
theorem c2_amended (n : ℕ) (evs : List J) (lc : ℤ) :
    ((busPublishAll (busInit n) evs).ring.Pairwise (fun a b => a.1 < b.1)) ∧
    ((∃ it ∈ (busPublishAll (busInit n) evs).ring, it.1 = lc) →
      replayFrom (busPublishAll (busInit n) evs).ring lc =
        some ((busPublishAll (busInit n) evs).ring.filter (fun it => lc < it.1))) ∧
    ((busPublishAll (busInit n) evs).ring ≠ [] → 0 < lc →
      (∀ it ∈ (busPublishAll (busInit n) evs).ring, it.1 ≠ lc) →
      replayFrom (busPublishAll (busInit n) evs).ring lc = none) ∧
    (replayFrom (busPublishAll (busInit n) evs).ring lc = some [] →
      (busPublishAll (busInit n) evs).ring = [] ∨
        ∀ it ∈ (busPublishAll (busInit n) evs).ring, it.1 ≤ lc) := by
  obtain ⟨hpw, hbnd, hc⟩ := busInv_publishAll (busInit n) evs (busInv_init n)
  refine ⟨hpw, ?_, ?_, ?_⟩
  · intro hmem
    exact replayFrom_mem _ lc (fun it hit => (hbnd it hit).1) hmem
  · intro hne hlc hnm
    exact replayFrom_evicted _ lc hne hlc hnm
  · intro h
    exact replayFrom_empty_only _ lc h

/-- C2 witness: with two published events and last cursor 1, replay returns
exactly the single item with cursor 2. -/
theorem c2_amended_witness :
    replayFrom (busPublishAll (busInit 500) [J.null, J.null]).ring 1 =
      some ((busPublishAll (busInit 500) [J.null, J.null]).ring.filter
        (fun it => 1 < it.1)) :=
  (c2_amended 500 [J.null, J.null] 1).2.1 ⟨(1, J.null), List.mem_cons_self _ _, rfl⟩

lemma cacheInv_empty : CacheInv ResourceCache.empty := by
  intro rt nn rid
  simp [ResourceCache.empty]

lemma cacheInv_not_mem (c : ResourceCache) (h : CacheInv c) (rt nn rid : String)
    (hno : ∀ e, c.byRid rid = some e → ¬ (e.rtype = rt ∧ e.nameNorm = some nn ∧ nn ≠ "")) :
    c.invIdx rt nn rid = false := by
  cases hcv : c.invIdx rt nn rid
  · rfl
  · exfalso
    obtain ⟨e, he, h1, h2, h3⟩ := (h rt nn rid).mp hcv
    exact hno e he ⟨h1, h2, h3⟩

lemma upsertDiscardStep_byRid (c : ResourceCache) (rid : String) :
    (upsertDiscardStep c rid).byRid = c.byRid := by
  rcases hb : c.byRid rid with _ | prev
  · simp [upsertDiscardStep, hb]
  · rcases hn : prev.nameNorm with _ | pn
    · simp [upsertDiscardStep, hb, hn]
    · by_cases hpn : pn = ""
      · simp [upsertDiscardStep, hb, hn, hpn]
      · simp [upsertDiscardStep, hb, hn, hpn, invDiscard]

lemma upsertDiscardStep_clears (c : ResourceCache) (rid : String) (h : CacheInv c)
    (rt nn : String) : (upsertDiscardStep c rid).invIdx rt nn rid = false := by
  rcases hb : c.byRid rid with _ | prev
  · simp only [upsertDiscardStep, hb]
    exact cacheInv_not_mem c h rt nn rid (fun e he => by rw [hb] at he; exact (Option.noConfusion he))
  · rcases hn : prev.nameNorm with _ | pn
    · simp only [upsertDiscardStep, hb, hn]
      refine cacheInv_not_mem c h rt nn rid (fun e he => ?_)
      rw [hb] at he
      rcases Option.some_injective _ he
      rintro ⟨-, h2, -⟩
      rw [hn] at h2
      exact Option.noConfusion h2
    · by_cases hpn : pn = ""
      · subst hpn
        simp only [upsertDiscardStep, hb, hn, if_pos rfl]
        refine cacheInv_not_mem c h rt nn rid (fun e he => ?_)
        rw [hb] at he
        rcases Option.some_injective _ he
        rintro ⟨-, h2, h3⟩
        rw [hn] at h2
        exact h3 (Option.some_injective _ h2).symm
      · simp only [upsertDiscardStep, hb, hn, if_neg hpn, invDiscard]
        by_cases hcond : rt = prev.rtype ∧ nn = pn
        · rw [if_pos ⟨hcond.1, hcond.2, by trivial⟩]
        · rw [if_neg (by tauto)]
          refine cacheInv_not_mem c h rt nn rid (fun e he => ?_)
          rw [hb] at he
          rcases Option.some_injective _ he
          rintro ⟨h1, h2, -⟩
          rw [hn] at h2
          exact hcond ⟨h1.symm, (Option.some_injective _ h2).symm⟩

lemma upsertDiscardStep_other (c : ResourceCache) (rid rt nn r : String) (hr : r ≠ rid) :
    (upsertDiscardStep c rid).invIdx rt nn r = c.invIdx rt nn r := by
  rcases hb : c.byRid rid with _ | prev
  · simp [upsertDiscardStep, hb]
  · rcases hn : prev.nameNorm with _ | pn
    · simp [upsertDiscardStep, hb, hn]
    · by_cases hpn : pn = ""
      · simp [upsertDiscardStep, hb, hn, hpn]
      · simp only [upsertDiscardStep, hb, hn, if_neg hpn, invDiscard]
        rw [if_neg (by tauto)]

lemma cacheInv_upsert (c : ResourceCache) (rid rtype : String) (name : Option String)
    (data : J) (h : CacheInv c) : CacheInv (cacheUpsert c rid rtype name data) := by
  intro rt nn r
  by_cases hr : r = rid
  · subst hr
    rcases hnn : computeNameNorm name with _ | n0
    · simp only [cacheUpsert, hnn, eq_self_iff_true, if_true]
      constructor
      · intro hx
        rw [upsertDiscardStep_clears c r h rt nn] at hx
        exact Bool.noConfusion hx
      · rintro ⟨e, he, -, h2, -⟩
        rcases Option.some_injective _ he
        exact Option.noConfusion h2
    · by_cases hn0 : n0 = ""
      · subst hn0
        simp only [cacheUpsert, hnn, eq_self_iff_true, if_true]
        constructor
        · intro hx
          rw [upsertDiscardStep_clears c r h rt nn] at hx
          exact Bool.noConfusion hx
        · rintro ⟨e, he, -, h2, h3⟩
          rcases Option.some_injective _ he
          exact (h3 (Option.some_injective _ h2).symm).elim
      · simp only [cacheUpsert, hnn, if_neg hn0, invAdd, eq_self_iff_true, if_true, and_true]
        by_cases hcond : rt = rtype ∧ nn = n0
        · rw [if_pos hcond]
          constructor
          · intro _
            exact ⟨⟨r, rtype, name, some n0, data⟩, rfl, hcond.1.symm, by rw [hcond.2], by
              rw [hcond.2]; exact hn0⟩
          · intro _
            rfl
        · rw [if_neg hcond]
          constructor
          · intro hx
            rw [upsertDiscardStep_clears c r h rt nn] at hx
            exact Bool.noConfusion hx
          · rintro ⟨e, he, h1, h2, -⟩
            rcases Option.some_injective _ he
            exact (hcond ⟨h1.symm, (Option.some_injective _ h2).symm⟩).elim
  · have hby : ∀ x : ResourceCache,
        (match computeNameNorm name with
          | some n => if n = "" then x else invAdd x rtype n rid
          | none => x).byRid r = x.byRid r := by
      intro x
      rcases computeNameNorm name with _ | n0
      · rfl
      · by_cases hn0 : n0 = ""
        · simp [hn0]
        · simp [hn0, invAdd]
    rcases hnn : computeNameNorm name with _ | n0
    · simp only [cacheUpsert, hnn, if_neg hr]
      rw [upsertDiscardStep_byRid, upsertDiscardStep_other c rid rt nn r hr]
      exact h rt nn r
    · by_cases hn0 : n0 = ""
      · simp only [cacheUpsert, hnn, if_neg hr, if_pos hn0]
        rw [upsertDiscardStep_byRid, upsertDiscardStep_other c rid rt nn r hr]
        exact h rt nn r
      · simp only [cacheUpsert, hnn, if_neg hr, if_neg hn0, invAdd]
        rw [if_neg (by tauto), upsertDiscardStep_byRid, upsertDiscardStep_other c rid rt nn r hr]
        exact h rt nn r

lemma cacheInv_delete (c : ResourceCache) (rid : String) (h : CacheInv c) :
    CacheInv (cacheDelete c rid) := by
  intro rt nn r
  rcases hb : c.byRid rid with _ | prev
  · simp only [cacheDelete, hb]
    exact h rt nn r
  · by_cases hr : r = rid
    · subst hr
      rcases hn : prev.nameNorm with _ | pn
      · simp only [cacheDelete, hb, hn, eq_self_iff_true, if_true]
        constructor
        · intro hx
          have := cacheInv_not_mem c h rt nn r (fun e he => by
            rw [hb] at he
            rcases Option.some_injective _ he
            rintro ⟨-, h2, -⟩
            rw [hn] at h2
            exact Option.noConfusion h2)
          rw [this] at hx
          exact Bool.noConfusion hx
        · rintro ⟨e, he, -⟩
          simp at he
      · by_cases hpn : pn = ""
        · subst hpn
          simp only [cacheDelete, hb, hn, eq_self_iff_true, if_true]
          constructor
          · intro hx
            have := cacheInv_not_mem c h rt nn r (fun e he => by
              rw [hb] at he
              rcases Option.some_injective _ he
              rintro ⟨-, h2, h3⟩
              rw [hn] at h2
              exact h3 (Option.some_injective _ h2).symm)
            rw [this] at hx
            exact Bool.noConfusion hx
          · rintro ⟨e, he, -⟩
            simp at he
        · simp only [cacheDelete, hb, hn, if_neg hpn, invDiscard, eq_self_iff_true, if_true,
            and_true]
          constructor
          · intro hx
            by_cases hcond : rt = prev.rtype ∧ nn = pn
            · rw [if_pos hcond] at hx
              exact Bool.noConfusion hx
            · rw [if_neg (by tauto)] at hx
              have := cacheInv_not_mem c h rt nn r (fun e he => by
                rw [hb] at he
                rcases Option.some_injective _ he
                rintro ⟨h1, h2, -⟩
                rw [hn] at h2
                exact hcond ⟨h1.symm, (Option.some_injective _ h2).symm⟩)
              rw [this] at hx
              exact Bool.noConfusion hx
          · rintro ⟨e, he, -⟩
            simp at he
    · rcases hn : prev.nameNorm with _ | pn
      · simp only [cacheDelete, hb, hn, if_neg hr]
        exact h rt nn r
      · by_cases hpn : pn = ""
        · simp only [cacheDelete, hb, hn, if_pos hpn, if_neg hr]
          exact h rt nn r
        · simp only [cacheDelete, hb, hn, if_neg hpn, invDiscard, if_neg hr]
          rw [if_neg (by tauto)]
          exact h rt nn r

lemma cacheInv_run (ops : List CacheOp) : CacheInv (runCacheOps ops) := by
  have main : ∀ (c : ResourceCache), CacheInv c → CacheInv (ops.foldl applyCacheOp c) := by
    induction ops with
    | nil => intro c hc; simpa using hc
    | cons op rest ih =>
      intro c hc
      simp only [List.foldl_cons]
      refine ih (applyCacheOp c op) ?_
      cases op with
      | upsert rid rtype name data => exact cacheInv_upsert c rid rtype name data hc
      | delete rid => exact cacheInv_delete c rid hc
      | get _ => exact hc
  exact main ResourceCache.empty cacheInv_empty

/-- C9: after any finite sequence of cache operations from the empty cache,
every rid whose forward entry has a truthy name_norm is a member of the
inverted set for its (rtype, name_norm); a rid with no forward entry, or
with an absent/empty name_norm, belongs to no inverted set. -/
theorem c9_cache_invariant (ops : List CacheOp) :
    (∀ rid e nn, (runCacheOps ops).byRid rid = some e → e.nameNorm = some nn → nn ≠ "" →
      (runCacheOps ops).invIdx e.rtype nn rid = true) ∧
    (∀ rid, (runCacheOps ops).byRid rid = none →
      ∀ rt nn, (runCacheOps ops).invIdx rt nn rid = false) ∧
    (∀ rid e, (runCacheOps ops).byRid rid = some e →
      (e.nameNorm = none ∨ e.nameNorm = some "") →
      ∀ rt nn, (runCacheOps ops).invIdx rt nn rid = false) := by
  have hinv := cacheInv_run ops
  refine ⟨?_, ?_, ?_⟩
  · intro rid e nn he hnn hne
    exact (hinv e.rtype nn rid).mpr ⟨e, he, rfl, hnn, hne⟩
  · intro rid hb rt nn
    exact cacheInv_not_mem _ hinv rt nn rid (fun e he => by
      rw [hb] at he
      exact Option.noConfusion he)
  · intro rid e he hdeg rt nn
    refine cacheInv_not_mem _ hinv rt nn rid (fun e2 he2 => ?_)
    rw [he] at he2
    rcases Option.some_injective _ he2
    rintro ⟨-, h2, h3⟩
    rcases hdeg with hdeg | hdeg
    · rw [hdeg] at h2
      exact Option.noConfusion h2
    · rw [hdeg] at h2
      exact h3 (Option.some_injective _ h2).symm

/-- C9 witness: upserting a named light from the empty cache puts its rid in
the inverted set for ("light", "lamp one"). -/
theorem c9_cache_invariant_witness :
    (runCacheOps [CacheOp.upsert "r1" "light" (some "Lamp One") J.null]).invIdx
      "light" "lamp one" "r1" = true :=
  (c9_cache_invariant [CacheOp.upsert "r1" "light" (some "Lamp One") J.null]).1
    "r1" ⟨"r1", "light", some "Lamp One", some "lamp one", J.null⟩ "lamp one"
    rfl rfl (by decide)

lemma dispatch_existing (t : IdemTable) (fp key action reqHash : String)
    (requestId : Option String) (now ttl : ℤ) (impl : V2Resp) (rec : IdemRecord)
    (hkey : key ≠ "") (hrec : idemLookup t fp key = some rec) :
    dispatchWithIdempotency t fp (some key) action reqHash requestId now ttl impl =
      (existingRecordResponse rec action reqHash requestId key, t) := by
  simp [dispatchWithIdempotency, markInProgress, hrec, hkey]

lemma cleanupExpired_unexpired (t : IdemTable) (now : ℤ) (maxRows : ℕ) :
    ∀ kr ∈ cleanupExpired t now maxRows, now < kr.2.expiresAt := by
  intro kr hkr
  simp only [cleanupExpired] at hkr
  split at hkr
  · exact of_decide_eq_true (List.mem_filter.mp hkr).2
  · exact of_decide_eq_true (List.mem_filter.mp (List.mem_filter.mp hkr).1).2

/-- C1: when the (credential_fingerprint, key) row already exists, the
dispatcher leaves the table untouched and answers from the row: a matching
in_progress row gives 409 idempotency_in_progress with a retryAfterMs hint
and a Retry-After: 1 header; any (action, request_hash) mismatch gives 409
idempotency_key_reuse_mismatch; a matching completed row replays the stored
status code and body with only requestId substituted. -/
theorem c1_idempotent_dispatch (t : IdemTable) (fp key action reqHash : String)
    (requestId : Option String) (now ttl : ℤ) (impl : V2Resp) (rec : IdemRecord)
    (hkey : key ≠ "") (hrec : idemLookup t fp key = some rec) :
    (dispatchWithIdempotency t fp (some key) action reqHash requestId now ttl impl).2 = t ∧
    (rec.status = IdemStatus.inProgress → rec.action = action → rec.requestHash = reqHash →
      (dispatchWithIdempotency t fp (some key) action reqHash requestId now ttl impl).1 =
        errResp requestId action 409 "idempotency_in_progress"
          "An identical request is still in progress"
          (J.obj [("retryAfterMs", J.n 250)]) [("Retry-After", "1")]) ∧
    ((rec.action ≠ action ∨ rec.requestHash ≠ reqHash) →
      (dispatchWithIdempotency t fp (some key) action reqHash requestId now ttl impl).1 =
        errResp requestId action 409 "idempotency_key_reuse_mismatch"
          "Idempotency key reused with a different request"
          (J.obj [("idempotencyKey", J.s key)]) []) ∧
    (∀ sc kvs, rec.status = IdemStatus.completed → rec.action = action →
      rec.requestHash = reqHash → rec.responseStatusCode = some sc →
      rec.responseJson = some (J.obj kvs) →
      (dispatchWithIdempotency t fp (some key) action reqHash requestId now ttl impl).1 =
        ⟨sc, J.obj (jSetKey kvs "requestId" (optStrJ requestId)), []⟩) := by
  have hd := dispatch_existing t fp key action reqHash requestId now ttl impl rec hkey hrec
  rw [hd]
  refine ⟨rfl, ?_, ?_, ?_⟩
  · intro h1 h2 h3
    simp [existingRecordResponse, h1, h2, h3]
  · intro hor
    cases hst : rec.status <;>
      · simp only [existingRecordResponse, hst]
        rw [if_pos hor]
  · intro sc kvs h1 h2 h3 h4 h5
    simp [existingRecordResponse, h1, h2, h3, h4, h5]

/-- C1 witness: a completed row for (fingerprint f, key k) replays its
stored 200 body with requestId replaced by the live r-2. -/
theorem c1_idempotent_dispatch_witness :
    (dispatchWithIdempotency
      [(("f", "k"),
        ⟨"f", "k", "bridge.set_host", "h1", IdemStatus.completed, some 200,
          some (J.obj [("requestId", J.s "r-1"), ("ok", J.b true)]), 10, 10, 910⟩)]
      "f" (some "k") "bridge.set_host" "h1" (some "r-2") 100 900
      ⟨200, J.obj [], []⟩).1 =
      ⟨200, J.obj (jSetKey [("requestId", J.s "r-1"), ("ok", J.b true)] "requestId"
        (optStrJ (some "r-2"))), []⟩ :=
  (c1_idempotent_dispatch
    [(("f", "k"),
      ⟨"f", "k", "bridge.set_host", "h1", IdemStatus.completed, some 200,
        some (J.obj [("requestId", J.s "r-1"), ("ok", J.b true)]), 10, 10, 910⟩)]
    "f" "k" "bridge.set_host" "h1" (some "r-2") 100 900
    ⟨200, J.obj [], []⟩
    ⟨"f", "k", "bridge.set_host", "h1", IdemStatus.completed, some 200,
      some (J.obj [("requestId", J.s "r-1"), ("ok", J.b true)]), 10, 10, 910⟩
    (by decide) rfl).2.2.2 200 [("requestId", J.s "r-1"), ("ok", J.b true)]
    rfl rfl rfl rfl rfl

/-- C10: neither the claim branch nor the replay branch reads expires_at —
the response is invariant under changing the row's expiry, an expired
completed (or in_progress) row still replays (or still reports
in_progress), and expiry only takes effect through cleanup_expired, after
which every surviving row is unexpired. -/
theorem c10_expiry_ignored_until_cleanup (t : IdemTable) (fp key action reqHash : String)
    (requestId : Option String) (now ttl : ℤ) (impl : V2Resp) (rec : IdemRecord)
    (maxRows : ℕ) (hkey : key ≠ "") (hrec : idemLookup t fp key = some rec)
    (hexp : rec.expiresAt ≤ now) :
    (∀ e2, existingRecordResponse { rec with expiresAt := e2 } action reqHash requestId key =
      existingRecordResponse rec action reqHash requestId key) ∧
    (∀ sc kvs, rec.status = IdemStatus.completed → rec.action = action →
      rec.requestHash = reqHash → rec.responseStatusCode = some sc →
      rec.responseJson = some (J.obj kvs) →
      (dispatchWithIdempotency t fp (some key) action reqHash requestId now ttl impl).1 =
        ⟨sc, J.obj (jSetKey kvs "requestId" (optStrJ requestId)), []⟩) ∧
    (rec.status = IdemStatus.inProgress → rec.action = action → rec.requestHash = reqHash →
      (dispatchWithIdempotency t fp (some key) action reqHash requestId now ttl impl).1 =
        errResp requestId action 409 "idempotency_in_progress"
          "An identical request is still in progress"
          (J.obj [("retryAfterMs", J.n 250)]) [("Retry-After", "1")]) ∧
    (∀ kr ∈ cleanupExpired t now maxRows, now < kr.2.expiresAt) := by
  have hd := dispatch_existing t fp key action reqHash requestId now ttl impl rec hkey hrec
  refine ⟨?_, ?_, ?_, cleanupExpired_unexpired t now maxRows⟩
  · intro e2
    obtain ⟨cf, ik, a2, rh, st, rsc, rj, ca, ua, ea⟩ := rec
    cases st <;> rfl
  · intro sc kvs h1 h2 h3 h4 h5
    rw [hd]
    simp [existingRecordResponse, h1, h2, h3, h4, h5]
  · intro h1 h2 h3
    rw [hd]
    simp [existingRecordResponse, h1, h2, h3]

/-- C10 witness: a completed row whose expiry (50) is already past at call
time (now 100) still replays the stored response. -/
theorem c10_expiry_ignored_until_cleanup_witness :
    (dispatchWithIdempotency
      [(("f", "k"),
        ⟨"f", "k", "bridge.set_host", "h1", IdemStatus.completed, some 200,
          some (J.obj [("requestId", J.s "r-1"), ("ok", J.b true)]), 10, 10, 50⟩)]
      "f" (some "k") "bridge.set_host" "h1" (some "r-2") 100 900
      ⟨200, J.obj [], []⟩).1 =
      ⟨200, J.obj (jSetKey [("requestId", J.s "r-1"), ("ok", J.b true)] "requestId"
        (optStrJ (some "r-2"))), []⟩ :=
  (c10_expiry_ignored_until_cleanup
    [(("f", "k"),
      ⟨"f", "k", "bridge.set_host", "h1", IdemStatus.completed, some 200,
        some (J.obj [("requestId", J.s "r-1"), ("ok", J.b true)]), 10, 10, 50⟩)]
    "f" "k" "bridge.set_host" "h1" (some "r-2") 100 900
    ⟨200, J.obj [], []⟩
    ⟨"f", "k", "bridge.set_host", "h1", IdemStatus.completed, some 200,
      some (J.obj [("requestId", J.s "r-1"), ("ok", J.b true)]), 10, 10, 50⟩
    5000 (by decide) rfl (by decide)).2.1 200
    [("requestId", J.s "r-1"), ("ok", J.b true)] rfl rfl rfl rfl rfl

lemma batchLoop_stop (oracle : ℕ → V2Resp) (br bk : Option String)
    (fs : BatchStep) (post : List BatchStep) (pre : List BatchStep) :
    ∀ (i : ℕ) (acc : List J),
      (∀ k, k < pre.length → (oracle (i + k)).statusCode < 400) →
      400 ≤ (oracle (i + pre.length)).statusCode →
      ∃ recs, batchLoop oracle br bk false (pre ++ fs :: post) i acc none =
        (acc ++ recs,
          some (i + pre.length, (oracle (i + pre.length)).statusCode,
            batchFailedError (oracle (i + pre.length)))) ∧
        recs.length = pre.length + 1 := by
  induction pre with
  | nil =>
    intro i acc hpre hfail
    have h0 : 400 ≤ (oracle i).statusCode := by simpa using hfail
    refine ⟨[batchStepRecord i fs (pyOrStr fs.requestId (deriveStepId br i))
      (pyOrStr fs.idempotencyKey (deriveStepId bk i)) (oracle i)], ?_, rfl⟩
    simp [batchLoop, h0]
  | cons p pre2 ih =>
    intro i acc hpre hfail
    have h0 : (oracle i).statusCode < 400 := by simpa using hpre 0 (Nat.succ_pos _)
    have hpre2 : ∀ k, k < pre2.length → (oracle (i + 1 + k)).statusCode < 400 := by
      intro k hk
      have he : i + 1 + k = i + (k + 1) := by omega
      rw [he]
      exact hpre (k + 1) (by simpa using Nat.succ_lt_succ hk)
    have hfail2 : 400 ≤ (oracle (i + 1 + pre2.length)).statusCode := by
      have he : i + 1 + pre2.length = i + (p :: pre2).length := by simp; omega
      rw [he]
      exact hfail
    obtain ⟨recs2, heq, hlen⟩ := ih (i + 1)
      (acc ++ [batchStepRecord i p (pyOrStr p.requestId (deriveStepId br i))
        (pyOrStr p.idempotencyKey (deriveStepId bk i)) (oracle i)]) hpre2 hfail2
    refine ⟨batchStepRecord i p (pyOrStr p.requestId (deriveStepId br i))
      (pyOrStr p.idempotencyKey (deriveStepId bk i)) (oracle i) :: recs2, ?_, by simp [hlen]⟩
    have hidx : i + 1 + pre2.length = i + (p :: pre2).length := by simp; omega
    simp only [List.cons_append, batchLoop]
    rw [if_neg (not_le.mpr h0), if_neg (by rintro ⟨-, hc⟩; exact absurd hc (not_le.mpr h0))]
    simp only [List.append_eq]
    rw [heq, hidx]
    simp

lemma batchLoop_nofail (oracle : ℕ → V2Resp) (br bk : Option String) (cont : Bool)
    (steps : List BatchStep) :
    ∀ (i : ℕ) (acc : List J) (failed : Option (ℕ × ℤ × Option J)),
      (∀ k, k < steps.length → (oracle (i + k)).statusCode < 400) →
      ∃ recs, batchLoop oracle br bk cont steps i acc failed = (acc ++ recs, failed) ∧
        recs.length = steps.length := by
  induction steps with
  | nil =>
    intro i acc failed _
    exact ⟨[], by simp [batchLoop], rfl⟩
  | cons p rest ih =>
    intro i acc failed h
    have h0 : (oracle i).statusCode < 400 := by simpa using h 0 (Nat.succ_pos _)
    have h2 : ∀ k, k < rest.length → (oracle (i + 1 + k)).statusCode < 400 := by
      intro k hk
      have he : i + 1 + k = i + (k + 1) := by omega
      rw [he]
      exact h (k + 1) (by simpa using Nat.succ_lt_succ hk)
    obtain ⟨recs2, heq, hlen⟩ := ih (i + 1)
      (acc ++ [batchStepRecord i p (pyOrStr p.requestId (deriveStepId br i))
        (pyOrStr p.idempotencyKey (deriveStepId bk i)) (oracle i)]) failed h2
    refine ⟨batchStepRecord i p (pyOrStr p.requestId (deriveStepId br i))
      (pyOrStr p.idempotencyKey (deriveStepId bk i)) (oracle i) :: recs2, ?_, by simp [hlen]⟩
    simp only [batchLoop]
    rw [if_neg (not_le.mpr h0), if_neg (by rintro ⟨-, hc⟩; exact absurd hc (not_le.mpr h0))]
    rw [heq]
    simp

lemma batchLoop_cont (oracle : ℕ → V2Resp) (br bk : Option String)
    (steps : List BatchStep) :
    ∀ (i : ℕ) (acc : List J) (failed : Option (ℕ × ℤ × Option J)),
      ∃ recs fl, batchLoop oracle br bk true steps i acc failed = (acc ++ recs, fl) ∧
        recs.length = steps.length := by
  induction steps with
  | nil =>
    intro i acc failed
    exact ⟨[], failed, by simp [batchLoop], rfl⟩
  | cons p rest ih =>
    intro i acc failed
    obtain ⟨recs2, fl, heq, hlen⟩ := ih (i + 1)
      (acc ++ [batchStepRecord i p (pyOrStr p.requestId (deriveStepId br i))
        (pyOrStr p.idempotencyKey (deriveStepId bk i)) (oracle i)])
      (if 400 ≤ (oracle i).statusCode then
        (if failed.isNone then
          some (i, (oracle i).statusCode, batchFailedError (oracle i)) else failed)
       else failed)
    refine ⟨batchStepRecord i p (pyOrStr p.requestId (deriveStepId br i))
      (pyOrStr p.idempotencyKey (deriveStepId bk i)) (oracle i) :: recs2, fl, ?_, by simp [hlen]⟩
    simp only [batchLoop]
    rw [if_neg (by rintro ⟨hc, -⟩; exact Bool.noConfusion hc)]
    rw [heq]
    simp

/-- C3: with continueOnError=false, execution stops at the first step whose
status is >= 400; the batch response carries that step's HTTP status and
error code, details.failedStepIndex names the failing index, and the steps
audit holds one record per executed step including the failing one.  With
no failing step the batch answers 200 with all results; with
continueOnError=true it always answers 207 with per-step results. -/
theorem c3_batch_stop_on_error (oracle : ℕ → V2Resp) (steps pre post : List BatchStep)
    (fs : BatchStep) (requestId payloadRid headerKey payloadKey : Option String) :
    (steps = pre ++ fs :: post →
      (∀ k, k < pre.length → (oracle k).statusCode < 400) →
      400 ≤ (oracle pre.length).statusCode →
      ∀ ekvs c, batchFailedError (oracle pre.length) = some (J.obj ekvs) →
        jLookup ekvs "code" = some (J.s c) →
        ∃ results : List J, results.length = pre.length + 1 ∧
          actionsBatch oracle false steps requestId payloadRid headerKey payloadKey =
            errResp requestId "actions.batch" (oracle pre.length).statusCode c
              "Batch step failed"
              (J.obj [("failedStepIndex", J.n pre.length), ("steps", J.arr results)]) []) ∧
    ((∀ k, k < steps.length → (oracle k).statusCode < 400) →
      ∃ results : List J, results.length = steps.length ∧
        actionsBatch oracle false steps requestId payloadRid headerKey payloadKey =
          ⟨200, J.obj [("requestId", optStrJ requestId), ("action", J.s "actions.batch"),
            ("ok", J.b true),
            ("result", J.obj [("continueOnError", J.b false), ("steps", J.arr results)])],
            []⟩) ∧
    (∃ results : List J, results.length = steps.length ∧
      actionsBatch oracle true steps requestId payloadRid headerKey payloadKey =
        ⟨207, J.obj [("requestId", optStrJ requestId), ("action", J.s "actions.batch"),
          ("ok", J.b true),
          ("result", J.obj [("continueOnError", J.b true), ("steps", J.arr results)])],
          []⟩) := by
  refine ⟨?_, ?_, ?_⟩
  · intro hsteps hpre hfail ekvs c hE hC
    subst hsteps
    obtain ⟨recs, heq, hlen⟩ := batchLoop_stop oracle
      (pyOrStr requestId payloadRid) (pyOrStr headerKey payloadKey) fs post pre 0 []
      (by simpa using hpre) (by simpa using hfail)
    refine ⟨recs, hlen, ?_⟩
    simp only [actionsBatch, heq]
    simp [hE, hC]
  · intro hok
    obtain ⟨recs, heq, hlen⟩ := batchLoop_nofail oracle
      (pyOrStr requestId payloadRid) (pyOrStr headerKey payloadKey) false steps 0 [] none
      (by simpa using hok)
    refine ⟨recs, hlen, ?_⟩
    simp only [actionsBatch, heq]
    simp
  · obtain ⟨recs, fl, heq, hlen⟩ := batchLoop_cont oracle
      (pyOrStr requestId payloadRid) (pyOrStr headerKey payloadKey) steps 0 [] none
    refine ⟨recs, hlen, ?_⟩
    simp only [actionsBatch, heq]
    simp

/-- C3 witness: the two-step batch of the spec scenario (success then
not_found) answers 404 not_found with failedStepIndex 1 and two audit
records. -/
theorem c3_batch_stop_on_error_witness :
    ∃ results : List J, results.length = 2 ∧
      actionsBatch
        (fun i => if i = 0 then ⟨200, J.obj [("ok", J.b true)], []⟩
          else ⟨404, J.obj [("ok", J.b false),
            ("error", J.obj [("code", J.s "not_found")])], []⟩)
        false [⟨"bridge.set_host", none, none⟩, ⟨"resolve.by_name", none, none⟩]
        none none none none =
      errResp none "actions.batch" 404 "not_found" "Batch step failed"
        (J.obj [("failedStepIndex", J.n 1), ("steps", J.arr results)]) [] := by
  have h := (c3_batch_stop_on_error
    (fun i => if i = 0 then ⟨200, J.obj [("ok", J.b true)], []⟩
      else ⟨404, J.obj [("ok", J.b false),
        ("error", J.obj [("code", J.s "not_found")])], []⟩)
    [⟨"bridge.set_host", none, none⟩, ⟨"resolve.by_name", none, none⟩]
    [⟨"bridge.set_host", none, none⟩] [] ⟨"resolve.by_name", none, none⟩
    none none none none).1 rfl
    (by intro k hk; simp at hk; subst hk; decide)
    (by decide) [("code", J.s "not_found")] "not_found" rfl rfl
  simpa using h

lemma v2_brightness_only (b : ℚ) (o : Option Bool) :
    v2BuildAppliedPayload ⟨o, some b, none, none⟩ none =
      Except.ok
        (⟨o, some (if max 0 (min 100 b) = 0 then 1/10 else max 0 (min 100 b)), none, none⟩,
        (if (if max 0 (min 100 b) = 0 then (1 : ℚ)/10 else max 0 (min 100 b)) ≠ b then
          [⟨"clamped", "brightness was clamped",
            J.obj [("requested", J.n b),
              ("applied", J.n (if max 0 (min 100 b) = 0 then 1/10 else max 0 (min 100 b)))]⟩]
         else []),
        (match o with
          | some v => [("on", J.obj [("on", J.b v)])]
          | none => []) ++
          [("dimming", J.obj [("brightness",
            J.n (if max 0 (min 100 b) = 0 then 1/10 else max 0 (min 100 b)))])]) := by
  cases o <;>
    · simp only [v2BuildAppliedPayload]
      split_ifs <;> simp_all <;> rfl

lemma v1_brightness_only (b : ℚ) :
    v1BuildLightPayload [("brightness", J.n b)] =
      Except.ok [("dimming", J.obj [("brightness", J.n (max (1/10) (min 100 b)))])] := by
  rfl

/-- C4 counterexample: a requested v2 brightness of 0.05 (inside the
schema's [0, 100] range) is applied unchanged — below the claimed lower
bound 0.1 — and no clamped warning is emitted. -/
theorem c4_counterexample :
    v2BuildAppliedPayload ⟨none, some (1/20), none, none⟩ none =
      Except.ok (⟨none, some (1/20), none, none⟩, [],
        [("dimming", J.obj [("brightness", J.n (1/20))])]) ∧
    ¬ ((1 : ℚ)/10 ≤ 1/20) := by
  constructor
  · have h := v2_brightness_only (1/20) none
    have h1 : max (0 : ℚ) (min 100 (1/20)) = 1/20 := by norm_num
    rw [h, h1] at *
    norm_num
  · norm_num

/-- C4 (amended): v1 clamps brightness into [0.1, 100]; v2 clamps into
(0, 100] — values above 100 fall to 100, values at or below 0 rise to 0.1,
but values strictly between 0 and 0.1 pass through unchanged — and v2
emits a clamped warning exactly when the applied value differs from the
requested one. -/
theorem c4_amended (b : ℚ) (o : Option Bool) :
    v1BuildLightPayload [("brightness", J.n b)] =
      Except.ok [("dimming", J.obj [("brightness", J.n (max (1/10) (min 100 b)))])] ∧
    ((1 : ℚ)/10 ≤ max (1/10) (min 100 b) ∧ max ((1 : ℚ)/10) (min 100 b) ≤ 100) ∧
    v2BuildAppliedPayload ⟨o, some b, none, none⟩ none =
      Except.ok
        (⟨o, some (if max 0 (min 100 b) = 0 then 1/10 else max 0 (min 100 b)), none, none⟩,
        (if (if max 0 (min 100 b) = 0 then (1 : ℚ)/10 else max 0 (min 100 b)) ≠ b then
          [⟨"clamped", "brightness was clamped",
            J.obj [("requested", J.n b),
              ("applied", J.n (if max 0 (min 100 b) = 0 then 1/10 else max 0 (min 100 b)))]⟩]
         else []),
        (match o with
          | some v => [("on", J.obj [("on", J.b v)])]
          | none => []) ++
          [("dimming", J.obj [("brightness",
            J.n (if max 0 (min 100 b) = 0 then 1/10 else max 0 (min 100 b)))])]) ∧
    (b ≤ 0 → (if max 0 (min 100 b) = 0 then (1 : ℚ)/10 else max 0 (min 100 b)) = 1/10) ∧
    (100 < b → (if max 0 (min 100 b) = 0 then (1 : ℚ)/10 else max 0 (min 100 b)) = 100) ∧
    (0 < b →
      0 < (if max 0 (min 100 b) = 0 then (1 : ℚ)/10 else max 0 (min 100 b)) ∧
      (if max 0 (min 100 b) = 0 then (1 : ℚ)/10 else max 0 (min 100 b)) ≤ 100) ∧
    (0 < b → b < 1/10 →
      (if max 0 (min 100 b) = 0 then (1 : ℚ)/10 else max 0 (min 100 b)) = b) := by
  refine ⟨v1_brightness_only b, ⟨le_max_left _ _, ?_⟩, v2_brightness_only b o, ?_, ?_, ?_, ?_⟩
  · exact max_le (by norm_num) (min_le_left 100 b)
  · intro hb
    have h0 : max (0 : ℚ) (min 100 b) = 0 := by
      rw [max_eq_left]
      exact le_trans (min_le_right 100 b) hb
    rw [if_pos h0]
  · intro hb
    have h1 : min (100 : ℚ) b = 100 := min_eq_left (le_of_lt hb)
    have h0 : max (0 : ℚ) (min 100 b) = 100 := by
      rw [h1]
      exact max_eq_right (by norm_num)
    rw [if_neg (by rw [h0]; norm_num), h0]
  · intro hb
    split_ifs with h0
    · constructor <;> norm_num
    · constructor
      · rcases le_or_lt b 100 with hle | hgt
        · have : min (100 : ℚ) b = b := min_eq_right hle
          rw [max_eq_right (by rw [this]; linarith), this]
          exact hb
        · have : min (100 : ℚ) b = 100 := min_eq_left (le_of_lt hgt)
          rw [max_eq_right (by rw [this]; norm_num), this]
          norm_num
      · exact le_trans (max_le (by norm_num) (min_le_left 100 b)) (by norm_num)
  · intro hb hb2
    have hmin : min (100 : ℚ) b = b := min_eq_right (by linarith)
    have h0 : max (0 : ℚ) (min 100 b) = b := by
      rw [hmin]
      exact max_eq_right (le_of_lt hb)
    rw [if_neg (by rw [h0]; linarith), h0]

/-- C4 witness: the amended pass-through case applied at brightness 0.05
yields an applied brightness of exactly 0.05. -/
theorem c4_amended_witness :
    (if max (0 : ℚ) (min 100 (1/20)) = 0 then (1 : ℚ)/10 else max 0 (min 100 (1/20))) =
      1/20 :=
  (c4_amended (1/20) none).2.2.2.2.2.2 (by norm_num) (by norm_num)

end HueGateway
